import Mathlib

/-!
# Crocodile core: a shallow embedding of the durable orchestration store

This file embeds the core of the `crocodile` repository in Lean 4:

* the domain model (`src/schemas.rs`): `Plan`, `Task`, `ContextItem`,
  `Event`, `Review` and their status enums and constructors;
* the Append Log (`src/engine/storage.rs`): JSONL files, modelled at the
  JSON-value level (a line is either whitespace-only, malformed text, or a
  JSON value), with the serde encode/decode of each entity spelled out;
* the Mirror Store (`src/engine/cache.rs`): each SQLite table is a list of
  rows in insertion order; `INSERT OR REPLACE` deletes any row with the
  same primary key and appends the new row; `ORDER BY` is a stable sort on
  the requested key (SQLite scans in rowid order and `mergeSort` is
  stable, so ties keep insertion order);
* the Orchestration Engine (`src/engine/croc_engine.rs`): construction,
  reconciliation (`ensure_cache_synced` / `full_sync`), the write-through
  append path with explicit injected failures for the log write and the
  mirror upsert, and the read paths;
* the session layer (`src/tmux.rs`): the deterministic session-name
  derivation and the result handling of each tmux invocation.

Modelling conventions:

* UTC timestamps (`chrono::DateTime<Utc>`) are `Nat` instants; chrono's
  RFC3339 rendering is order-preserving and injective, so `Nat` with its
  usual order is a faithful abstraction for both the JSON encoding and the
  `ORDER BY created_at` comparisons on the stored TEXT column.
* `f32` (the `confidence` field) is modelled as `ℚ`: serde_json prints a
  finite float with a shortest representation that parses back to the same
  value, so finite floats round-trip exactly.
* Rust strings of the session-name functions are `List Char`, so that
  `strip_prefix` and `split('.')` can be stated and proved structurally.
* Error payloads built with `format!` are abstracted away: each
  `CrocError` variant keeps only the data the specification talks about
  (the entity type and id of `NotFound`); `Json` stands for
  `CrocError::Json(serde_json::Error)` and `Sqlite` for
  `CrocError::Sqlite(sqlx::Error)`.
-/

namespace Croc

/-- A JSON value, as produced and consumed by `serde_json`. -/
inductive Json where
  | null : Json
  | bool : Bool → Json
  | num : ℚ → Json
  | str : String → Json
  | arr : List Json → Json
  | obj : List (String × Json) → Json

/-! ## Domain model (`src/schemas.rs`) -/

/-- `PlanStatus` (serde `snake_case`). -/
inductive PlanStatus where
  | pending | approved | running | complete | cancelled
deriving DecidableEq

/-- `TaskType` (serde `snake_case`). -/
inductive TaskType where
  | foreman | subtask
deriving DecidableEq

/-- `TaskStatus` (serde `snake_case`). -/
inductive TaskStatus where
  | pending | running | complete | failed
deriving DecidableEq

/-- `ContextType` (serde `snake_case`). -/
inductive ContextType where
  | fact | decision
deriving DecidableEq

/-- `EventType` (serde `snake_case`). -/
inductive EventType where
  | initialized | planCreated | planApproved | foremanSpawned | workerSpawned
  | workerProgress | workerComplete | workerFailed | reviewRequested
  | reviewApproved | reviewChangesRequested | planComplete | planCancelled
deriving DecidableEq

/-- `ReviewerType` (serde `snake_case`). -/
inductive ReviewerType where
  | agent | human
deriving DecidableEq

/-- `ReviewStatus` (serde `snake_case`). -/
inductive ReviewStatus where
  | pending | approved | changesRequested
deriving DecidableEq

/-- `Plan` (`schemas.rs`). Timestamps are `Nat` instants. -/
structure Plan where
  id : String
  title : String
  description : String
  subtasks_preview : List String
  considerations : List String
  status : PlanStatus
  approved_at : Option Nat
  created_at : Nat
  updated_at : Nat
deriving DecidableEq

/-- `Task` (`schemas.rs`). -/
structure Task where
  id : String
  plan_id : String
  parent_id : Option String
  task_type : TaskType
  title : String
  description : Option String
  status : TaskStatus
  depends_on : List String
  worktree : Option String
  assigned_worker : Option String
  created_at : Nat
  updated_at : Nat
deriving DecidableEq

/-- `ContextItem` (`schemas.rs`); `confidence : Option<f32>` is `Option ℚ`. -/
structure ContextItem where
  id : String
  plan_id : String
  subtask_id : Option String
  item_type : ContextType
  content : String
  source : Option String
  reasoning : Option String
  alternatives : Option (List String)
  confidence : Option ℚ
  created_at : Nat
deriving DecidableEq

/-- `Event` (`schemas.rs`); `data : Option<serde_json::Value>` is `Option Json`. -/
structure Event where
  id : String
  event_type : EventType
  plan_id : Option String
  task_id : Option String
  data : Option Json
  timestamp : Nat

/-- `Review` (`schemas.rs`). -/
structure Review where
  id : String
  plan_id : String
  reviewer_type : ReviewerType
  status : ReviewStatus
  notes : List String
  created_at : Nat
  updated_at : Nat
deriving DecidableEq

/-! ### Constructors (`impl` blocks in `schemas.rs`)

`Utc::now()` is passed in explicitly as `now : Nat`; the Rust constructors
call it once and use the same instant for `created_at` and `updated_at`. -/

/-- `Plan::new(id, title, description)`. -/
def Plan.new (id title description : String) (now : Nat) : Plan :=
  { id := id
    title := title
    description := description
    subtasks_preview := []
    considerations := []
    status := .pending
    approved_at := none
    created_at := now
    updated_at := now }

/-- `Task::generate_foreman_id`: `format!("task-{}", plan_id.strip_prefix("plan-").unwrap_or(plan_id))`. -/
def Task.generate_foreman_id (plan_id : String) : String :=
  "task-" ++ (if plan_id.startsWith "plan-" then plan_id.drop 5 else plan_id)

/-- `Task::new_foreman(plan_id, title)`. -/
def Task.new_foreman (plan_id title : String) (now : Nat) : Task :=
  { id := Task.generate_foreman_id plan_id
    plan_id := plan_id
    parent_id := none
    task_type := .foreman
    title := title
    description := none
    status := .pending
    depends_on := []
    worktree := none
    assigned_worker := none
    created_at := now
    updated_at := now }

/-- `Task::new_subtask(plan_id, parent_id, subtask_num, title)`. -/
def Task.new_subtask (plan_id parent_id : String) (subtask_num : Nat) (title : String)
    (now : Nat) : Task :=
  { id := parent_id ++ "." ++ toString subtask_num
    plan_id := plan_id
    parent_id := some parent_id
    task_type := .subtask
    title := title
    description := none
    status := .pending
    depends_on := []
    worktree := none
    assigned_worker := none
    created_at := now
    updated_at := now }

/-- `Review::generate_id`: `format!("rev-{}", Utc::now().timestamp_millis())`. -/
def Review.generate_id (nowMillis : Nat) : String :=
  "rev-" ++ toString nowMillis

/-- `Review::new(plan_id, reviewer_type)`. -/
def Review.new (plan_id : String) (reviewer_type : ReviewerType) (now : Nat) : Review :=
  { id := Review.generate_id now
    plan_id := plan_id
    reviewer_type := reviewer_type
    status := .pending
    notes := []
    created_at := now
    updated_at := now }

/-! ## The serde_json encoding of the domain model

`chrono::DateTime<Utc>` serializes as an RFC3339 string. RFC3339 rendering
of UTC instants is injective and parsing is its partial inverse; with
instants modelled as `Nat`, the rendering is modelled as the decimal
numeral written with `Nat.digitChar` (fuel-based so the kernel can
evaluate it) and parsing as its partial inverse. -/

/-- Little-endian decimal digits of `t`, with explicit fuel (`fuel ≥ t`). -/
def digitsFuel : Nat → Nat → List Nat
  | 0, _ => []
  | _, 0 => []
  | fuel + 1, t => (t % 10) :: digitsFuel fuel (t / 10)

/-- Little-endian decimal digits of `t`. -/
def renderDigits (t : Nat) : List Nat := digitsFuel t t

/-- Value of a little-endian decimal digit list. -/
def ofDigitsLE : List Nat → Nat
  | [] => 0
  | d :: ds => d + 10 * ofDigitsLE ds

/-- Inverse of `Nat.digitChar` on decimal digits. -/
def charToDigit? (c : Char) : Option Nat :=
  if '0' ≤ c ∧ c ≤ '9' then some (c.toNat - '0'.toNat) else none

/-- The RFC3339 rendering of the instant `t` (modelled as its decimal numeral). -/
def renderTime (t : Nat) : String :=
  ⟨((renderDigits t).map Nat.digitChar).reverse⟩

/-- RFC3339 parsing: partial inverse of `renderTime`. -/
def parseTime (s : String) : Option Nat :=
  (s.data.reverse.mapM charToDigit?).map ofDigitsLE

/-! ### Generic decode helpers (the shape of serde's derived `Deserialize`) -/

/-- Look up a field of a JSON object (first occurrence). -/
def getField? : List (String × Json) → String → Option Json
  | [], _ => none
  | (k', v) :: rest, k => if k' = k then some v else getField? rest k

/-- A required field: missing or undecodable is a decode error. -/
def reqField (fields : List (String × Json)) (k : String) (f : Json → Option α) : Option α :=
  (getField? fields k).bind f

/-- An `Option` field: missing or `null` decodes to `none`; any other value
must decode (serde's `Option<T>` visitor). -/
def optField (fields : List (String × Json)) (k : String) (f : Json → Option α) :
    Option (Option α) :=
  match getField? fields k with
  | none => some none
  | some .null => some none
  | some j => (f j).map some

/-- Decode a JSON string. -/
def asStr : Json → Option String
  | .str s => some s
  | _ => none

/-- Decode a JSON array of strings (`Vec<String>`). -/
def asStrList : Json → Option (List String)
  | .arr xs => xs.mapM asStr
  | _ => none

/-- Decode a JSON number (`f32`, modelled as `ℚ`). -/
def asNum : Json → Option ℚ
  | .num q => some q
  | _ => none

/-- Encode an instant. -/
def encTime (t : Nat) : Json := .str (renderTime t)

/-- Decode an instant (an RFC3339 string). -/
def decTime : Json → Option Nat
  | .str s => parseTime s
  | _ => none

/-- Encode an `Option` by `null` / the value (serde's `Option<T>` serializer). -/
def encOpt (f : α → Json) : Option α → Json
  | none => .null
  | some a => f a

/-! ### Entity codecs (derived `Serialize`/`Deserialize`, `snake_case` enums) -/

/-- serde name of a `PlanStatus` value. -/
def PlanStatus.serName : PlanStatus → String
  | .pending => "pending"
  | .approved => "approved"
  | .running => "running"
  | .complete => "complete"
  | .cancelled => "cancelled"

/-- serde decode of a `PlanStatus` name. -/
def PlanStatus.ofName? : String → Option PlanStatus
  | "pending" => some .pending
  | "approved" => some .approved
  | "running" => some .running
  | "complete" => some .complete
  | "cancelled" => some .cancelled
  | _ => none

/-- Decode a `PlanStatus` JSON value. -/
def decPlanStatus : Json → Option PlanStatus
  | .str s => PlanStatus.ofName? s
  | _ => none

/-- serde serialization of a `Plan` (fields in declaration order). -/
def Plan.toJson (p : Plan) : Json :=
  .obj [("id", .str p.id),
        ("title", .str p.title),
        ("description", .str p.description),
        ("subtasks_preview", .arr (p.subtasks_preview.map .str)),
        ("considerations", .arr (p.considerations.map .str)),
        ("status", .str p.status.serName),
        ("approved_at", encOpt encTime p.approved_at),
        ("created_at", encTime p.created_at),
        ("updated_at", encTime p.updated_at)]

/-- serde deserialization of a `Plan`. -/
def Plan.fromJson? : Json → Option Plan
  | .obj fields => do
    let id ← reqField fields "id" asStr
    let title ← reqField fields "title" asStr
    let description ← reqField fields "description" asStr
    let subtasks_preview ← reqField fields "subtasks_preview" asStrList
    let considerations ← reqField fields "considerations" asStrList
    let status ← reqField fields "status" decPlanStatus
    let approved_at ← optField fields "approved_at" decTime
    let created_at ← reqField fields "created_at" decTime
    let updated_at ← reqField fields "updated_at" decTime
    pure { id, title, description, subtasks_preview, considerations, status,
           approved_at, created_at, updated_at }
  | _ => none

/-- serde name of a `TaskType` value. -/
def TaskType.serName : TaskType → String
  | .foreman => "foreman"
  | .subtask => "subtask"

/-- serde decode of a `TaskType` name. -/
def TaskType.ofName? : String → Option TaskType
  | "foreman" => some .foreman
  | "subtask" => some .subtask
  | _ => none

/-- Decode a `TaskType` JSON value. -/
def decTaskType : Json → Option TaskType
  | .str s => TaskType.ofName? s
  | _ => none

/-- serde name of a `TaskStatus` value. -/
def TaskStatus.serName : TaskStatus → String
  | .pending => "pending"
  | .running => "running"
  | .complete => "complete"
  | .failed => "failed"

/-- serde decode of a `TaskStatus` name. -/
def TaskStatus.ofName? : String → Option TaskStatus
  | "pending" => some .pending
  | "running" => some .running
  | "complete" => some .complete
  | "failed" => some .failed
  | _ => none

/-- Decode a `TaskStatus` JSON value. -/
def decTaskStatus : Json → Option TaskStatus
  | .str s => TaskStatus.ofName? s
  | _ => none

/-- serde serialization of a `Task`. -/
def Task.toJson (t : Task) : Json :=
  .obj [("id", .str t.id),
        ("plan_id", .str t.plan_id),
        ("parent_id", encOpt .str t.parent_id),
        ("task_type", .str t.task_type.serName),
        ("title", .str t.title),
        ("description", encOpt .str t.description),
        ("status", .str t.status.serName),
        ("depends_on", .arr (t.depends_on.map .str)),
        ("worktree", encOpt .str t.worktree),
        ("assigned_worker", encOpt .str t.assigned_worker),
        ("created_at", encTime t.created_at),
        ("updated_at", encTime t.updated_at)]

/-- serde deserialization of a `Task`. -/
def Task.fromJson? : Json → Option Task
  | .obj fields => do
    let id ← reqField fields "id" asStr
    let plan_id ← reqField fields "plan_id" asStr
    let parent_id ← optField fields "parent_id" asStr
    let task_type ← reqField fields "task_type" decTaskType
    let title ← reqField fields "title" asStr
    let description ← optField fields "description" asStr
    let status ← reqField fields "status" decTaskStatus
    let depends_on ← reqField fields "depends_on" asStrList
    let worktree ← optField fields "worktree" asStr
    let assigned_worker ← optField fields "assigned_worker" asStr
    let created_at ← reqField fields "created_at" decTime
    let updated_at ← reqField fields "updated_at" decTime
    pure { id, plan_id, parent_id, task_type, title, description, status,
           depends_on, worktree, assigned_worker, created_at, updated_at }
  | _ => none

/-- serde name of a `ContextType` value. -/
def ContextType.serName : ContextType → String
  | .fact => "fact"
  | .decision => "decision"

/-- serde decode of a `ContextType` name. -/
def ContextType.ofName? : String → Option ContextType
  | "fact" => some .fact
  | "decision" => some .decision
  | _ => none

/-- Decode a `ContextType` JSON value. -/
def decContextType : Json → Option ContextType
  | .str s => ContextType.ofName? s
  | _ => none

/-- serde serialization of a `ContextItem`. -/
def ContextItem.toJson (c : ContextItem) : Json :=
  .obj [("id", .str c.id),
        ("plan_id", .str c.plan_id),
        ("subtask_id", encOpt .str c.subtask_id),
        ("item_type", .str c.item_type.serName),
        ("content", .str c.content),
        ("source", encOpt .str c.source),
        ("reasoning", encOpt .str c.reasoning),
        ("alternatives", encOpt (fun xs => .arr (xs.map .str)) c.alternatives),
        ("confidence", encOpt .num c.confidence),
        ("created_at", encTime c.created_at)]

/-- serde deserialization of a `ContextItem`. -/
def ContextItem.fromJson? : Json → Option ContextItem
  | .obj fields => do
    let id ← reqField fields "id" asStr
    let plan_id ← reqField fields "plan_id" asStr
    let subtask_id ← optField fields "subtask_id" asStr
    let item_type ← reqField fields "item_type" decContextType
    let content ← reqField fields "content" asStr
    let source ← optField fields "source" asStr
    let reasoning ← optField fields "reasoning" asStr
    let alternatives ← optField fields "alternatives" asStrList
    let confidence ← optField fields "confidence" asNum
    let created_at ← reqField fields "created_at" decTime
    pure { id, plan_id, subtask_id, item_type, content, source, reasoning,
           alternatives, confidence, created_at }
  | _ => none

/-- serde name of an `EventType` value. -/
def EventType.serName : EventType → String
  | .initialized => "initialized"
  | .planCreated => "plan_created"
  | .planApproved => "plan_approved"
  | .foremanSpawned => "foreman_spawned"
  | .workerSpawned => "worker_spawned"
  | .workerProgress => "worker_progress"
  | .workerComplete => "worker_complete"
  | .workerFailed => "worker_failed"
  | .reviewRequested => "review_requested"
  | .reviewApproved => "review_approved"
  | .reviewChangesRequested => "review_changes_requested"
  | .planComplete => "plan_complete"
  | .planCancelled => "plan_cancelled"

/-- serde decode of an `EventType` name. -/
def EventType.ofName? : String → Option EventType
  | "initialized" => some .initialized
  | "plan_created" => some .planCreated
  | "plan_approved" => some .planApproved
  | "foreman_spawned" => some .foremanSpawned
  | "worker_spawned" => some .workerSpawned
  | "worker_progress" => some .workerProgress
  | "worker_complete" => some .workerComplete
  | "worker_failed" => some .workerFailed
  | "review_requested" => some .reviewRequested
  | "review_approved" => some .reviewApproved
  | "review_changes_requested" => some .reviewChangesRequested
  | "plan_complete" => some .planComplete
  | "plan_cancelled" => some .planCancelled
  | _ => none

/-- Decode an `EventType` JSON value. -/
def decEventType : Json → Option EventType
  | .str s => EventType.ofName? s
  | _ => none

/-- serde serialization of an `Event`; `data : Option<Value>` serializes as
`null` or the value itself. -/
def Event.toJson (e : Event) : Json :=
  .obj [("id", .str e.id),
        ("event_type", .str e.event_type.serName),
        ("plan_id", encOpt .str e.plan_id),
        ("task_id", encOpt .str e.task_id),
        ("data", encOpt (fun j => j) e.data),
        ("timestamp", encTime e.timestamp)]

/-- serde deserialization of an `Event`; note that serde's `Option<Value>`
visitor maps `null` to `None`, so a present-but-null `data` is not
representable on disk. -/
def Event.fromJson? : Json → Option Event
  | .obj fields => do
    let id ← reqField fields "id" asStr
    let event_type ← reqField fields "event_type" decEventType
    let plan_id ← optField fields "plan_id" asStr
    let task_id ← optField fields "task_id" asStr
    let data ← optField fields "data" some
    let timestamp ← reqField fields "timestamp" decTime
    pure { id, event_type, plan_id, task_id, data, timestamp }
  | _ => none

/-- serde name of a `ReviewerType` value. -/
def ReviewerType.serName : ReviewerType → String
  | .agent => "agent"
  | .human => "human"

/-- serde decode of a `ReviewerType` name. -/
def ReviewerType.ofName? : String → Option ReviewerType
  | "agent" => some .agent
  | "human" => some .human
  | _ => none

/-- Decode a `ReviewerType` JSON value. -/
def decReviewerType : Json → Option ReviewerType
  | .str s => ReviewerType.ofName? s
  | _ => none

/-- serde name of a `ReviewStatus` value. -/
def ReviewStatus.serName : ReviewStatus → String
  | .pending => "pending"
  | .approved => "approved"
  | .changesRequested => "changes_requested"

/-- serde decode of a `ReviewStatus` name. -/
def ReviewStatus.ofName? : String → Option ReviewStatus
  | "pending" => some .pending
  | "approved" => some .approved
  | "changes_requested" => some .changesRequested
  | _ => none

/-- Decode a `ReviewStatus` JSON value. -/
def decReviewStatus : Json → Option ReviewStatus
  | .str s => ReviewStatus.ofName? s
  | _ => none

/-- serde serialization of a `Review`. -/
def Review.toJson (r : Review) : Json :=
  .obj [("id", .str r.id),
        ("plan_id", .str r.plan_id),
        ("reviewer_type", .str r.reviewer_type.serName),
        ("status", .str r.status.serName),
        ("notes", .arr (r.notes.map .str)),
        ("created_at", encTime r.created_at),
        ("updated_at", encTime r.updated_at)]

/-- serde deserialization of a `Review`. -/
def Review.fromJson? : Json → Option Review
  | .obj fields => do
    let id ← reqField fields "id" asStr
    let plan_id ← reqField fields "plan_id" asStr
    let reviewer_type ← reqField fields "reviewer_type" decReviewerType
    let status ← reqField fields "status" decReviewStatus
    let notes ← reqField fields "notes" asStrList
    let created_at ← reqField fields "created_at" decTime
    let updated_at ← reqField fields "updated_at" decTime
    pure { id, plan_id, reviewer_type, status, notes, created_at, updated_at }
  | _ => none

/-! ## Errors (`src/error.rs`)

Variants of `CrocError`; `format!` message payloads and foreign error
payloads (`std::io::Error`, `serde_json::Error`, `sqlx::Error`) are
abstracted away, keeping only the data the variants are matched on. -/

/-- `CrocError` (`error.rs`). `json` is `CrocError::Json(serde_json::Error)`
(the spec's "StorageError" class covers log I/O, lock, and encode/decode
failures, i.e. the `storage` and `json` variants); `sqlite` is
`CrocError::Sqlite(sqlx::Error)`. -/
inductive CrocError where
  | alreadyInitialized
  | notGitRepo
  | pathNotFound
  | invalidConfig
  | storage
  | cache
  | tmux
  | notFound (entity_type : String) (id : String)
  | invalidRole
  | missingEnvVar
  | io
  | json
  | sqlite
deriving DecidableEq

/-- The spec's `StorageError` class (§7): "log I/O, lock, or encode/decode
failure", i.e. `CrocError::Storage` or `CrocError::Json`. -/
def CrocError.isStorageClass : CrocError → Bool
  | .storage => true
  | .json => true
  | _ => false

/-! ## Append Log (`src/engine/storage.rs`)

A JSONL file is a list of lines; each line is whitespace-only (`blank`),
non-blank text that is not a JSON value (`malformed`), or the text of a
JSON value (`record j`). A log target on disk is `Option LogFile`
(`none` = the file does not exist). -/

/-- One line of a JSONL file. -/
inductive LogLine where
  | blank
  | malformed
  | record (j : Json)

/-- A JSONL file's contents. -/
abbrev LogFile := List LogLine

/-- The read loop of `Storage::read_jsonl`: skip whitespace-only lines,
fail with `CrocError::Json` on the first line that does not parse as a `T`
(`serde_json::from_str(&line)?`), otherwise collect records in order. -/
def readJsonlLines (dec : Json → Option α) : LogFile → Except CrocError (List α)
  | [] => .ok []
  | .blank :: rest => readJsonlLines dec rest
  | .malformed :: _ => .error .json
  | .record j :: rest =>
    match dec j with
    | none => .error .json
    | some r => (readJsonlLines dec rest).map (r :: ·)

/-- `Storage::read_jsonl`: a missing file reads as the empty sequence. -/
def Storage.read_jsonl (dec : Json → Option α) : Option LogFile → Except CrocError (List α)
  | none => .ok []
  | some lines => readJsonlLines dec lines

/-- `Storage::append_jsonl_locked` (success path): open with
`create(true).append(true)` — creating a missing file — lock, and write
one line holding the record's serde_json serialization. Open/lock/write
failures are injected at the engine layer. -/
def Storage.append_jsonl_locked (enc : α → Json) (file : Option LogFile) (x : α) :
    Option LogFile :=
  some ((file.getD []) ++ [.record (enc x)])

/-- A sequence of appends by one process. -/
def Storage.appendAll (enc : α → Json) (file : Option LogFile) (es : List α) :
    Option LogFile :=
  es.foldl (Storage.append_jsonl_locked enc) file

/-- A line the read loop rejects: non-blank and not parsing as the target
entity type. -/
def LogLine.isBad (dec : Json → Option α) : LogLine → Bool
  | .blank => false
  | .malformed => true
  | .record j => (dec j).isNone

/-- The records of the well-formed lines, in file order (blank lines skipped). -/
def decodedRecords (dec : Json → Option α) : LogFile → List α :=
  List.filterMap fun l => match l with
    | .record j => dec j
    | _ => none

/-! ## Mirror Store (`src/engine/cache.rs`)

Each SQLite table is the list of its rows in insertion (rowid) order.
`INSERT OR REPLACE` deletes any row with the same primary key and inserts
the new row at the end. `ORDER BY created_at` sorts by the stored RFC3339
TEXT, whose order is the order of the modelled `Nat` instants; SQLite
scans in rowid order, so ties keep insertion order — a stable sort
(`List.mergeSort`). Connection/query failures are injected at the engine
layer; the pure functions here are the success paths. -/

/-- `INSERT OR REPLACE` keyed by `key`. -/
def upsertRow (key : α → String) (rows : List α) (x : α) : List α :=
  (rows.filter fun r => !(key r == key x)) ++ [x]

/-- The five tables of `cache.db`. -/
structure CacheState where
  plans : List Plan
  tasks : List Task
  context_items : List ContextItem
  events : List Event
  reviews : List Review

/-- `Cache::upsert_plan`. -/
def Cache.upsert_plan (c : CacheState) (p : Plan) : CacheState :=
  { c with plans := upsertRow Plan.id c.plans p }

/-- `Cache::upsert_task`. -/
def Cache.upsert_task (c : CacheState) (t : Task) : CacheState :=
  { c with tasks := upsertRow Task.id c.tasks t }

/-- `Cache::upsert_context`. -/
def Cache.upsert_context (c : CacheState) (x : ContextItem) : CacheState :=
  { c with context_items := upsertRow ContextItem.id c.context_items x }

/-- `Cache::upsert_event`. -/
def Cache.upsert_event (c : CacheState) (e : Event) : CacheState :=
  { c with events := upsertRow Event.id c.events e }

/-- `Cache::upsert_review`. -/
def Cache.upsert_review (c : CacheState) (r : Review) : CacheState :=
  { c with reviews := upsertRow Review.id c.reviews r }

/-- `ORDER BY created_at` (ascending). -/
def ascCreated (key : α → Nat) (rows : List α) : List α :=
  rows.mergeSort fun a b => decide (key a ≤ key b)

/-- `ORDER BY created_at DESC`. -/
def descCreated (key : α → Nat) (rows : List α) : List α :=
  rows.mergeSort fun a b => decide (key b ≤ key a)

/-- `Cache::get_plan`: `SELECT ... FROM plans WHERE id = ?` (`fetch_optional`). -/
def Cache.get_plan (c : CacheState) (id : String) : Option Plan :=
  c.plans.find? fun p => p.id == id

/-- `Cache::get_task`. -/
def Cache.get_task (c : CacheState) (id : String) : Option Task :=
  c.tasks.find? fun t => t.id == id

/-- `Cache::get_tasks_for_plan`: `WHERE plan_id = ? ORDER BY created_at`. -/
def Cache.get_tasks_for_plan (c : CacheState) (plan_id : String) : List Task :=
  ascCreated Task.created_at (c.tasks.filter fun t => t.plan_id == plan_id)

/-- `Cache::get_context_for_plan`: `WHERE plan_id = ? ORDER BY created_at`. -/
def Cache.get_context_for_plan (c : CacheState) (plan_id : String) : List ContextItem :=
  ascCreated ContextItem.created_at (c.context_items.filter fun x => x.plan_id == plan_id)

/-- `Cache::get_context_for_task`: `WHERE subtask_id = ? ORDER BY created_at`
(a SQL `NULL` `subtask_id` never matches). -/
def Cache.get_context_for_task (c : CacheState) (subtask_id : String) : List ContextItem :=
  ascCreated ContextItem.created_at
    (c.context_items.filter fun x => x.subtask_id == some subtask_id)

/-- `Cache::get_active_plans`:
`WHERE status IN ('"approved"', '"running"') ORDER BY created_at DESC`. -/
def Cache.get_active_plans (c : CacheState) : List Plan :=
  descCreated Plan.created_at
    (c.plans.filter fun p => p.status == .approved || p.status == .running)

/-- `Cache::get_all_plans`: `SELECT ... FROM plans ORDER BY created_at DESC`. -/
def Cache.get_all_plans (c : CacheState) : List Plan :=
  descCreated Plan.created_at c.plans

/-- `Cache::clear_all`: `DELETE FROM` every table. -/
def Cache.clear_all : CacheState :=
  { plans := [], tasks := [], context_items := [], events := [], reviews := [] }

/-! ## Orchestration Engine (`src/engine/croc_engine.rs`)

The engine-level log contents are the parsed record sequences (the JSONL
text layer above is bridged by `read_jsonl_appendAll`). `ProjectFs` is
the on-disk project state `CrocEngine::new` starts from: whether the
`.croc` directory exists, each log target (`none` = file absent), and the
cache database contents. -/

/-- The engine's view of the five append-log targets. -/
structure StorageState where
  plans : List Plan
  tasks : List Task
  context : List ContextItem
  events : List Event
  reviews : List Review

/-- On-disk project state consumed by `CrocEngine::new`. -/
structure ProjectFs where
  crocDirExists : Bool
  plansFile : Option (List Plan)
  tasksFile : Option (List Task)
  contextFile : Option (List ContextItem)
  eventsFile : Option (List Event)
  reviewsFile : Option (List Review)
  cacheDb : CacheState

/-- `Config::is_initialized`: `self.croc_dir.exists()`. -/
def Config.is_initialized (fs : ProjectFs) : Bool := fs.crocDirExists

/-- `Storage::read_plans` etc.: a missing log target reads as empty. -/
def StorageState.ofFs (fs : ProjectFs) : StorageState :=
  { plans := fs.plansFile.getD []
    tasks := fs.tasksFile.getD []
    context := fs.contextFile.getD []
    events := fs.eventsFile.getD []
    reviews := fs.reviewsFile.getD [] }

/-- The engine's two stores. -/
structure EngineState where
  storage : StorageState
  cache : CacheState

/-- `CrocEngine::full_sync`: clear the mirror, then replay every entity
type's log in full, oldest-first, upserting each record. -/
def CrocEngine.full_sync (e : EngineState) : EngineState :=
  let c0 := Cache.clear_all
  let c1 := e.storage.plans.foldl Cache.upsert_plan c0
  let c2 := e.storage.tasks.foldl Cache.upsert_task c1
  let c3 := e.storage.context.foldl Cache.upsert_context c2
  let c4 := e.storage.events.foldl Cache.upsert_event c3
  let c5 := e.storage.reviews.foldl Cache.upsert_review c4
  { e with cache := c5 }

/-- `CrocEngine::ensure_cache_synced`: full sync exactly when the cache
has no plans but the plans log is non-empty. -/
def CrocEngine.ensure_cache_synced (e : EngineState) : EngineState :=
  if (Cache.get_all_plans e.cache).isEmpty then
    if e.storage.plans.isEmpty then e else CrocEngine.full_sync e
  else e

/-- `CrocEngine::new`: fail fast with `InvalidConfig` when not initialized,
else open the stores and reconcile. (`Cache::new` is modelled on its
success path.) -/
def CrocEngine.new (fs : ProjectFs) : Except CrocError EngineState :=
  if Config.is_initialized fs then
    .ok (CrocEngine.ensure_cache_synced ⟨StorageState.ofFs fs, fs.cacheDb⟩)
  else
    .error .invalidConfig

/-! ### The write-through append path, with injected failures

Each `append<Entity>` first appends to the log (`Storage::append_*`,
which can fail with `CrocError::Storage` before writing anything) and
only on success upserts into the mirror (`Cache::upsert_*`, which can
fail with `CrocError::Sqlite`); a mirror failure leaves the already
written log record in place. The two `ok` flags inject those failures. -/

/-- `Storage::append_plan` with an injected outcome. -/
def Storage.append_plan (ok : Bool) (s : StorageState) (p : Plan) :
    Except CrocError StorageState :=
  if ok then .ok { s with plans := s.plans ++ [p] } else .error .storage

/-- `Storage::append_task` with an injected outcome. -/
def Storage.append_task (ok : Bool) (s : StorageState) (t : Task) :
    Except CrocError StorageState :=
  if ok then .ok { s with tasks := s.tasks ++ [t] } else .error .storage

/-- `Storage::append_context` with an injected outcome. -/
def Storage.append_context (ok : Bool) (s : StorageState) (x : ContextItem) :
    Except CrocError StorageState :=
  if ok then .ok { s with context := s.context ++ [x] } else .error .storage

/-- `Storage::append_event` with an injected outcome. -/
def Storage.append_event (ok : Bool) (s : StorageState) (ev : Event) :
    Except CrocError StorageState :=
  if ok then .ok { s with events := s.events ++ [ev] } else .error .storage

/-- `Storage::append_review` with an injected outcome. -/
def Storage.append_review (ok : Bool) (s : StorageState) (r : Review) :
    Except CrocError StorageState :=
  if ok then .ok { s with reviews := s.reviews ++ [r] } else .error .storage

/-- `Cache::upsert_plan` with an injected outcome. -/
def Cache.try_upsert_plan (ok : Bool) (c : CacheState) (p : Plan) :
    Except CrocError CacheState :=
  if ok then .ok (Cache.upsert_plan c p) else .error .sqlite

/-- `Cache::upsert_task` with an injected outcome. -/
def Cache.try_upsert_task (ok : Bool) (c : CacheState) (t : Task) :
    Except CrocError CacheState :=
  if ok then .ok (Cache.upsert_task c t) else .error .sqlite

/-- `Cache::upsert_context` with an injected outcome. -/
def Cache.try_upsert_context (ok : Bool) (c : CacheState) (x : ContextItem) :
    Except CrocError CacheState :=
  if ok then .ok (Cache.upsert_context c x) else .error .sqlite

/-- `Cache::upsert_event` with an injected outcome. -/
def Cache.try_upsert_event (ok : Bool) (c : CacheState) (ev : Event) :
    Except CrocError CacheState :=
  if ok then .ok (Cache.upsert_event c ev) else .error .sqlite

/-- `Cache::upsert_review` with an injected outcome. -/
def Cache.try_upsert_review (ok : Bool) (c : CacheState) (r : Review) :
    Except CrocError CacheState :=
  if ok then .ok (Cache.upsert_review c r) else .error .sqlite

/-- `CrocEngine::append_plan`: log first; mirror only on log success; the
returned state is what is durably on disk afterwards. -/
def CrocEngine.append_plan (logOk mirrorOk : Bool) (e : EngineState) (p : Plan) :
    Except CrocError Unit × EngineState :=
  match Storage.append_plan logOk e.storage p with
  | .error err => (.error err, e)
  | .ok st =>
    match Cache.try_upsert_plan mirrorOk e.cache p with
    | .error err => (.error err, { e with storage := st })
    | .ok c => (.ok (), ⟨st, c⟩)

/-- `CrocEngine::append_task`. -/
def CrocEngine.append_task (logOk mirrorOk : Bool) (e : EngineState) (t : Task) :
    Except CrocError Unit × EngineState :=
  match Storage.append_task logOk e.storage t with
  | .error err => (.error err, e)
  | .ok st =>
    match Cache.try_upsert_task mirrorOk e.cache t with
    | .error err => (.error err, { e with storage := st })
    | .ok c => (.ok (), ⟨st, c⟩)

/-- `CrocEngine::append_context`. -/
def CrocEngine.append_context (logOk mirrorOk : Bool) (e : EngineState) (x : ContextItem) :
    Except CrocError Unit × EngineState :=
  match Storage.append_context logOk e.storage x with
  | .error err => (.error err, e)
  | .ok st =>
    match Cache.try_upsert_context mirrorOk e.cache x with
    | .error err => (.error err, { e with storage := st })
    | .ok c => (.ok (), ⟨st, c⟩)

/-- `CrocEngine::append_event`. -/
def CrocEngine.append_event (logOk mirrorOk : Bool) (e : EngineState) (ev : Event) :
    Except CrocError Unit × EngineState :=
  match Storage.append_event logOk e.storage ev with
  | .error err => (.error err, e)
  | .ok st =>
    match Cache.try_upsert_event mirrorOk e.cache ev with
    | .error err => (.error err, { e with storage := st })
    | .ok c => (.ok (), ⟨st, c⟩)

/-- `CrocEngine::append_review`. -/
def CrocEngine.append_review (logOk mirrorOk : Bool) (e : EngineState) (r : Review) :
    Except CrocError Unit × EngineState :=
  match Storage.append_review logOk e.storage r with
  | .error err => (.error err, e)
  | .ok st =>
    match Cache.try_upsert_review mirrorOk e.cache r with
    | .error err => (.error err, { e with storage := st })
    | .ok c => (.ok (), ⟨st, c⟩)

/-! ### Read paths -/

/-- `CrocEngine::get_plan`: required read; absence is `NotFound{Plan, id}`. -/
def CrocEngine.get_plan (e : EngineState) (id : String) : Except CrocError Plan :=
  match Cache.get_plan e.cache id with
  | some p => .ok p
  | none => .error (.notFound "Plan" id)

/-- `CrocEngine::get_plan_opt`: optional read; absence is `Ok(None)`. -/
def CrocEngine.get_plan_opt (e : EngineState) (id : String) :
    Except CrocError (Option Plan) :=
  .ok (Cache.get_plan e.cache id)

/-- `CrocEngine::get_task`: required read; absence is `NotFound{Task, id}`. -/
def CrocEngine.get_task (e : EngineState) (id : String) : Except CrocError Task :=
  match Cache.get_task e.cache id with
  | some t => .ok t
  | none => .error (.notFound "Task" id)

/-- `CrocEngine::get_task_opt`: optional read; absence is `Ok(None)`. -/
def CrocEngine.get_task_opt (e : EngineState) (id : String) :
    Except CrocError (Option Task) :=
  .ok (Cache.get_task e.cache id)

/-! ## Session Supervisor (`src/tmux.rs`)

Rust strings are modelled as `List Char` so `strip_prefix` and
`split('.')` can be reasoned about structurally. -/

/-- Rust `&str` / `String`. -/
abbrev RStr := List Char

/-- `str::strip_prefix(pat)`: `some` of the remainder when `pat` is a
prefix, else `none`. Arguments: pattern, then string. -/
def stripPrefix? : RStr → RStr → Option RStr
  | [], s => some s
  | _ :: _, [] => none
  | c :: p, d :: s => if c = d then stripPrefix? p s else none

/-- `str::split('.')`: never empty; "a.b" ↦ ["a","b"], "" ↦ [""]. -/
def splitDot : RStr → List RStr
  | [] => [[]]
  | c :: rest =>
    match splitDot rest with
    | [] => [[]]
    | g :: gs => if c = '.' then [] :: g :: gs else (c :: g) :: gs

/-- `foreman_session_name`. -/
def foreman_session_name (plan_id : RStr) : RStr :=
  let id := (stripPrefix? "plan-".toList plan_id).getD plan_id
  "croc-foreman-".toList ++ id

/-- `worker_session_name`: the task segment is
`task_id.strip_prefix("task-").and_then(|t| t.split('.').next_back()).unwrap_or(task_id)`. -/
def worker_session_name (plan_id task_id : RStr) : RStr :=
  let plan := (stripPrefix? "plan-".toList plan_id).getD plan_id
  let task := ((stripPrefix? "task-".toList task_id).bind
    fun t => (splitDot t).getLast?).getD task_id
  "croc-worker-".toList ++ plan ++ "-".toList ++ task

/-- `reviewer_session_name`. -/
def reviewer_session_name (plan_id : RStr) : RStr :=
  let id := (stripPrefix? "plan-".toList plan_id).getD plan_id
  "croc-reviewer-".toList ++ id

/-! ### tmux invocations (`Command::new("tmux")...`)

The outcome of one invocation: `launchError` when spawning the `tmux`
process itself fails (`Command::output()` / `::status()` returns `Err`),
otherwise the exit status and captured stdout. -/

/-- Result of invoking the `tmux` binary once. -/
inductive CmdResult where
  | launchError
  | ran (success : Bool) (stdout : List RStr)

/-- `TmuxSession::spawn`: launch failure or nonzero exit ⇒ `CrocError::Tmux`. -/
def TmuxSession.spawn : CmdResult → Except CrocError Unit
  | .launchError => .error .tmux
  | .ran success _ => if success then .ok () else .error .tmux

/-- `TmuxSession::exists`: `has-session`'s exit status is the boolean answer;
only a launch failure is an error. -/
def TmuxSession.exists : CmdResult → Except CrocError Bool
  | .launchError => .error .tmux
  | .ran success _ => .ok success

/-- `TmuxSession::send_keys`. -/
def TmuxSession.send_keys : CmdResult → Except CrocError Unit
  | .launchError => .error .tmux
  | .ran success _ => if success then .ok () else .error .tmux

/-- `TmuxSession::capture_pane`: returns captured stdout on success. -/
def TmuxSession.capture_pane : CmdResult → Except CrocError (List RStr)
  | .launchError => .error .tmux
  | .ran success out => if success then .ok out else .error .tmux

/-- `TmuxSession::kill`. -/
def TmuxSession.kill : CmdResult → Except CrocError Unit
  | .launchError => .error .tmux
  | .ran success _ => if success then .ok () else .error .tmux

/-- `TmuxSession::attach`. -/
def TmuxSession.attach : CmdResult → Except CrocError Unit
  | .launchError => .error .tmux
  | .ran success _ => if success then .ok () else .error .tmux

/-- `list_sessions`: a launch failure is a `Tmux` error, but a nonzero exit
returns `Ok(Vec::new())` — an empty, successful result. -/
def list_sessions : CmdResult → Except CrocError (List RStr)
  | .launchError => .error .tmux
  | .ran success out => if success then .ok out else .ok []

/-- `find_croc_sessions`: the sessions whose name starts with `"croc-"`. -/
def find_croc_sessions (r : CmdResult) : Except CrocError (List RStr) :=
  (list_sessions r).map fun sessions =>
    sessions.filter fun s => "croc-".toList.isPrefixOf s

/-! ### Auxiliary states and sample data -/

/-- The engine state over an empty project: empty logs, empty mirror. -/
def EngineState.empty : EngineState :=
  { storage := { plans := [], tasks := [], context := [], events := [], reviews := [] }
    cache := Cache.clear_all }

/-- Spec comparison point for reconciliation (spec §4.3/§8): the engine
state produced by writing every record of `s`, oldest-first, through the
engine's successful write-through append path. -/
def CrocEngine.writeDirectly (e : EngineState) (s : StorageState) : EngineState :=
  let e1 := s.plans.foldl (fun acc p => (CrocEngine.append_plan true true acc p).2) e
  let e2 := s.tasks.foldl (fun acc t => (CrocEngine.append_task true true acc t).2) e1
  let e3 := s.context.foldl (fun acc x => (CrocEngine.append_context true true acc x).2) e2
  let e4 := s.events.foldl (fun acc ev => (CrocEngine.append_event true true acc ev).2) e3
  s.reviews.foldl (fun acc r => (CrocEngine.append_review true true acc r).2) e4

/-- Sample data: a plan created at instant 1. -/
def planLater : Plan :=
  { id := "plan-a", title := "a", description := "", subtasks_preview := [],
    considerations := [], status := .pending, approved_at := none,
    created_at := 1, updated_at := 1 }

/-- Sample data: a plan created at instant 0. -/
def planEarlier : Plan :=
  { id := "plan-b", title := "b", description := "", subtasks_preview := [],
    considerations := [], status := .pending, approved_at := none,
    created_at := 0, updated_at := 0 }

/-- Sample data: an approved plan created at instant 2. -/
def planApprovedNow : Plan :=
  { id := "plan-c", title := "c", description := "", subtasks_preview := [],
    considerations := [], status := .approved, approved_at := some 2,
    created_at := 2, updated_at := 2 }

/-- Sample data: a cache holding only `planLater` and `planEarlier`. -/
def cacheTwoPlans : CacheState :=
  { plans := [planLater, planEarlier], tasks := [], context_items := [],
    events := [], reviews := [] }

/-- Sample data: an event with no payload. -/
def eventPlain : Event :=
  { id := "evt-0", event_type := .initialized, plan_id := none, task_id := none,
    data := none, timestamp := 0 }

/-- Sample data: an initialized project whose plans log has one record
while the mirror is empty (the reconciliation trigger). -/
def fsTrigger : ProjectFs :=
  { crocDirExists := true, plansFile := some [planLater], tasksFile := none,
    contextFile := none, eventsFile := none, reviewsFile := none,
    cacheDb := Cache.clear_all }

/-! ## Lemmas -/

theorem ofDigitsLE_digitsFuel : ∀ (fuel t : Nat), t ≤ fuel → ofDigitsLE (digitsFuel fuel t) = t
  | 0, t, h => by
    interval_cases t
    rfl
  | fuel + 1, 0, _ => rfl
  | fuel + 1, t + 1, h => by
    have hdiv : (t + 1) / 10 ≤ fuel := by
      have := Nat.div_lt_self (Nat.succ_pos t) (by norm_num : 1 < 10)
      omega
    simp only [digitsFuel, ofDigitsLE, ofDigitsLE_digitsFuel fuel ((t + 1) / 10) hdiv]
    omega

theorem ofDigitsLE_renderDigits (t : Nat) : ofDigitsLE (renderDigits t) = t :=
  ofDigitsLE_digitsFuel t t le_rfl

theorem digitsFuel_lt_ten : ∀ (fuel t : Nat), ∀ d ∈ digitsFuel fuel t, d < 10
  | 0, _ => by simp [digitsFuel]
  | fuel + 1, 0 => by simp [digitsFuel]
  | fuel + 1, t + 1 => by
    simp only [digitsFuel, List.mem_cons]
    rintro d (rfl | hd)
    · exact Nat.mod_lt _ (by norm_num)
    · exact digitsFuel_lt_ten fuel ((t + 1) / 10) d hd

theorem charToDigit?_digitChar {d : Nat} (h : d < 10) :
    charToDigit? (Nat.digitChar d) = some d := by
  interval_cases d <;> rfl

theorem mapM_charToDigit?_map_digitChar :
    ∀ (L : List Nat), (∀ d ∈ L, d < 10) → (L.map Nat.digitChar).mapM charToDigit? = some L
  | [], _ => rfl
  | d :: ds, h => by
    simp only [List.map_cons, List.mapM_cons,
      charToDigit?_digitChar (h d (List.mem_cons_self d ds)),
      mapM_charToDigit?_map_digitChar ds (fun x hx => h x (List.mem_cons_of_mem d hx))]
    rfl

theorem parseTime_renderTime (t : Nat) : parseTime (renderTime t) = some t := by
  simp only [parseTime, renderTime, List.reverse_reverse,
    mapM_charToDigit?_map_digitChar (renderDigits t) (digitsFuel_lt_ten t t),
    Option.map_some]
  exact congrArg some (ofDigitsLE_renderDigits t)

theorem decTime_encTime (t : Nat) : decTime (encTime t) = some t :=
  parseTime_renderTime t

theorem asStr_mapM_map_str : ∀ (xs : List String), (xs.map Json.str).mapM asStr = some xs
  | [] => rfl
  | x :: xs => by
    simp only [List.map_cons, List.mapM_cons, asStr, asStr_mapM_map_str xs]
    rfl

theorem asStrList_arr_map_str (xs : List String) :
    asStrList (.arr (xs.map Json.str)) = some xs := asStr_mapM_map_str xs

theorem decPlanStatus_serName (s : PlanStatus) :
    decPlanStatus (.str s.serName) = some s := by
  cases s <;> rfl

theorem plan_fromJson_toJson (p : Plan) : Plan.fromJson? p.toJson = some p := by
  obtain ⟨id, title, description, sp, cons, status, approved, ca, ua⟩ := p
  cases approved <;>
    simp [Plan.toJson, Plan.fromJson?, reqField, optField, getField?, asStr,
      asStrList_arr_map_str, decPlanStatus_serName, decTime_encTime, encOpt,
      encTime, decTime, parseTime_renderTime]

theorem decTaskType_serName (s : TaskType) : decTaskType (.str s.serName) = some s := by
  cases s <;> rfl

theorem decTaskStatus_serName (s : TaskStatus) : decTaskStatus (.str s.serName) = some s := by
  cases s <;> rfl

theorem task_fromJson_toJson (t : Task) : Task.fromJson? t.toJson = some t := by
  obtain ⟨id, plan_id, parent_id, tt, title, descr, status, dep, wt, aw, ca, ua⟩ := t
  cases parent_id <;> cases descr <;> cases wt <;> cases aw <;>
    simp [Task.toJson, Task.fromJson?, reqField, optField, getField?, asStr,
      asStrList_arr_map_str, decTaskType_serName, decTaskStatus_serName, encOpt,
      encTime, decTime, parseTime_renderTime]

theorem decContextType_serName (s : ContextType) :
    decContextType (.str s.serName) = some s := by
  cases s <;> rfl

theorem context_fromJson_toJson (c : ContextItem) :
    ContextItem.fromJson? c.toJson = some c := by
  obtain ⟨id, plan_id, sub, it, content, src, reas, alts, conf, ca⟩ := c
  cases sub <;> cases src <;> cases reas <;> cases alts <;> cases conf <;>
    simp [ContextItem.toJson, ContextItem.fromJson?, reqField, optField, getField?,
      asStr, asNum, asStrList_arr_map_str, decContextType_serName, encOpt,
      encTime, decTime, parseTime_renderTime]

theorem decEventType_serName (s : EventType) : decEventType (.str s.serName) = some s := by
  cases s <;> rfl

theorem event_fromJson_toJson (e : Event) (h : e.data ≠ some .null) :
    Event.fromJson? e.toJson = some e := by
  obtain ⟨id, et, plan_id, task_id, data, ts⟩ := e
  match data, h with
  | none, _ =>
    cases plan_id <;> cases task_id <;>
      simp [Event.toJson, Event.fromJson?, reqField, optField, getField?, asStr,
        decEventType_serName, encOpt, encTime, decTime, parseTime_renderTime]
  | some j, h =>
    have hj : j ≠ .null := fun hnull => h (by simp [hnull])
    cases plan_id <;> cases task_id <;> cases j <;> first
      | exact absurd rfl hj
      | simp [Event.toJson, Event.fromJson?, reqField, optField, getField?, asStr,
          decEventType_serName, encOpt, encTime, decTime, parseTime_renderTime]

theorem decReviewerType_serName (s : ReviewerType) :
    decReviewerType (.str s.serName) = some s := by
  cases s <;> rfl

theorem decReviewStatus_serName (s : ReviewStatus) :
    decReviewStatus (.str s.serName) = some s := by
  cases s <;> rfl

theorem review_fromJson_toJson (r : Review) : Review.fromJson? r.toJson = some r := by
  obtain ⟨id, plan_id, rt, status, notes, ca, ua⟩ := r
  simp [Review.toJson, Review.fromJson?, reqField, optField, getField?, asStr,
    asStrList_arr_map_str, decReviewerType_serName, decReviewStatus_serName,
    encTime, decTime, parseTime_renderTime]

theorem readJsonlLines_of_no_bad (dec : Json → Option α) :
    ∀ lines : LogFile, (∀ l ∈ lines, LogLine.isBad dec l = false) →
      readJsonlLines dec lines = .ok (decodedRecords dec lines)
  | [], _ => rfl
  | .blank :: rest, h => by
    simpa [readJsonlLines, decodedRecords] using
      readJsonlLines_of_no_bad dec rest (fun l hl => h l (List.mem_cons_of_mem _ hl))
  | .malformed :: rest, h => by
    simpa [LogLine.isBad] using h .malformed (List.mem_cons_self _ _)
  | .record j :: rest, h => by
    have hj : (dec j).isNone = false := by
      simpa [LogLine.isBad] using h (.record j) (List.mem_cons_self _ _)
    have ih := readJsonlLines_of_no_bad dec rest (fun l hl => h l (List.mem_cons_of_mem _ hl))
    cases hr : dec j with
    | none => simp [hr] at hj
    | some r => simp [readJsonlLines, decodedRecords, hr, ih, Except.map]

theorem readJsonlLines_of_bad (dec : Json → Option α) :
    ∀ lines : LogFile, (∃ l ∈ lines, LogLine.isBad dec l = true) →
      readJsonlLines dec lines = .error .json
  | [], h => by simp at h
  | .blank :: rest, h => by
    obtain ⟨l, hl, hbad⟩ := h
    rcases List.mem_cons.mp hl with rfl | hl'
    · simp [LogLine.isBad] at hbad
    · simpa [readJsonlLines] using readJsonlLines_of_bad dec rest ⟨l, hl', hbad⟩
  | .malformed :: rest, _ => rfl
  | .record j :: rest, h => by
    cases hj : dec j with
    | none => simp [readJsonlLines, hj]
    | some r =>
      obtain ⟨l, hl, hbad⟩ := h
      rcases List.mem_cons.mp hl with rfl | hl'
      · simp [LogLine.isBad, hj] at hbad
      · simp [readJsonlLines, hj, readJsonlLines_of_bad dec rest ⟨l, hl', hbad⟩, Except.map]

theorem readJsonlLines_append (dec : Json → Option α) :
    ∀ l₁ l₂ : LogFile, readJsonlLines dec (l₁ ++ l₂) =
      (readJsonlLines dec l₁).bind fun r₁ =>
        (readJsonlLines dec l₂).map fun r₂ => r₁ ++ r₂
  | [], l₂ => by
    cases h : readJsonlLines dec l₂ <;>
      simp [readJsonlLines, h, Except.bind, Except.map]
  | .blank :: rest, l₂ => by
    simpa [readJsonlLines] using readJsonlLines_append dec rest l₂
  | .malformed :: rest, l₂ => rfl
  | .record j :: rest, l₂ => by
    cases hj : dec j with
    | none => simp [readJsonlLines, hj, Except.bind]
    | some r =>
      cases h₁ : readJsonlLines dec rest <;>
        cases h₂ : readJsonlLines dec l₂ <;>
          simp [readJsonlLines, hj, readJsonlLines_append dec rest l₂, h₁, h₂,
            Except.bind, Except.map]

/-- Reading back a sequence of appends: each append adds its record at the
end, so the read result extends the previous contents in append order. -/
theorem read_jsonl_appendAll (enc : α → Json) (dec : Json → Option α) :
    ∀ (es : List α) (file : Option LogFile), (∀ x ∈ es, dec (enc x) = some x) →
      Storage.read_jsonl dec (Storage.appendAll enc file es) =
        (Storage.read_jsonl dec file).map fun rs => rs ++ es
  | [], file, _ => by
    cases h : Storage.read_jsonl dec file <;>
      simp [Storage.appendAll, h, Except.map]
  | x :: es, file, hdec => by
    have hx : dec (enc x) = some x := hdec x (List.mem_cons_self _ _)
    have step : Storage.read_jsonl dec (Storage.append_jsonl_locked enc file x) =
        (Storage.read_jsonl dec file).map fun rs => rs ++ [x] := by
      cases file with
      | none => simp [Storage.append_jsonl_locked, Storage.read_jsonl,
          readJsonlLines, hx, Except.map]
      | some lines =>
        cases h : readJsonlLines dec lines <;>
          simp [Storage.append_jsonl_locked, Storage.read_jsonl,
            readJsonlLines_append, readJsonlLines, hx, h, Except.bind, Except.map]
    have ih := read_jsonl_appendAll enc dec es (Storage.append_jsonl_locked enc file x)
      (fun y hy => hdec y (List.mem_cons_of_mem x hy))
    rw [show Storage.appendAll enc file (x :: es) =
          Storage.appendAll enc (Storage.append_jsonl_locked enc file x) es from rfl, ih, step]
    cases h : Storage.read_jsonl dec file <;> simp [h, Except.map]

theorem stripPrefix?_append : ∀ p s : RStr, stripPrefix? p (p ++ s) = some s
  | [], _ => rfl
  | c :: p, s => by simp [stripPrefix?, stripPrefix?_append p s]

theorem stripPrefix?_eq_none : ∀ {p s : RStr}, ¬ p <+: s → stripPrefix? p s = none
  | [], s, h => absurd (List.nil_prefix) h
  | _ :: _, [], _ => rfl
  | c :: p, d :: s, h => by
    by_cases hc : c = d
    · subst hc
      have : ¬ p <+: s := fun hp => h (List.prefix_cons_inj c |>.mpr hp)
      simp [stripPrefix?, stripPrefix?_eq_none this]
    · simp [stripPrefix?, hc]

theorem splitDot_ne_nil : ∀ s : RStr, splitDot s ≠ []
  | [] => by simp [splitDot]
  | c :: rest => by
    simp only [splitDot]
    cases hg : splitDot rest with
    | nil => exact absurd hg (splitDot_ne_nil rest)
    | cons g gs => by_cases hc : c = '.' <;> simp [hc]

/-- A dot-free string is one single segment. -/
theorem splitDot_no_dot : ∀ {s : RStr}, '.' ∉ s → splitDot s = [s]
  | [], _ => rfl
  | c :: rest, h => by
    have hc : ¬ c = '.' := fun hc => h (hc ▸ List.mem_cons_self c rest)
    have hr : '.' ∉ rest := fun hr => h (List.mem_cons_of_mem c hr)
    simp [splitDot, splitDot_no_dot hr, hc]

/-- A string containing a dot splits into at least two segments. -/
theorem two_le_length_splitDot : ∀ {s : RStr}, '.' ∈ s → 2 ≤ (splitDot s).length
  | c :: rest, h => by
    simp only [splitDot]
    cases hg : splitDot rest with
    | nil => exact absurd hg (splitDot_ne_nil rest)
    | cons g gs =>
      rcases List.mem_cons.mp h with hc | hr
      · simp [← hc]
      · have ih := two_le_length_splitDot hr
        rw [hg] at ih
        by_cases hc : c = '.'
        · simp [hc]
        · simpa [hc] using ih

/-- The last segment is found after the final dot. -/
theorem getLast?_splitDot_append_dot :
    ∀ (y z : RStr), (splitDot (y ++ '.' :: z)).getLast? = (splitDot z).getLast?
  | [], z => by
    cases hg : splitDot z with
    | nil => exact absurd hg (splitDot_ne_nil z)
    | cons g gs => simp [splitDot, hg]
  | c :: y, z => by
    have ih := getLast?_splitDot_append_dot y z
    have hmem : '.' ∈ y ++ '.' :: z := List.mem_append_right y (List.mem_cons_self _ _)
    have hlen := two_le_length_splitDot hmem
    show (splitDot (c :: (y ++ '.' :: z))).getLast? = _
    simp only [splitDot]
    cases hg : splitDot (y ++ '.' :: z) with
    | nil => exact absurd hg (splitDot_ne_nil _)
    | cons g gs =>
      rw [hg] at ih hlen
      cases gs with
      | nil => simp at hlen
      | cons g' gs' =>
        have h2 : (g' :: gs').getLast? = (splitDot z).getLast? := by
          rw [← ih, List.getLast?_cons_cons]
        by_cases hc : c = '.' <;>
          simp [hc, List.getLast?_cons_cons, h2]

theorem pairwise_ascCreated (key : α → Nat) (rows : List α) :
    (ascCreated key rows).Pairwise fun a b => key a ≤ key b := by
  have h := @List.sorted_mergeSort _ (fun a b => decide (key a ≤ key b))
    (fun a b c hab hbc => by
      simp only [decide_eq_true_eq] at *
      omega)
    (fun a b => by simpa using Nat.le_total (key a) (key b))
    rows
  exact h.imp fun hab => by simpa using hab

theorem pairwise_descCreated (key : α → Nat) (rows : List α) :
    (descCreated key rows).Pairwise fun a b => key b ≤ key a := by
  have h := @List.sorted_mergeSort _ (fun a b => decide (key b ≤ key a))
    (fun a b c hab hbc => by
      simp only [decide_eq_true_eq] at *
      omega)
    (fun a b => by simpa using Nat.le_total (key b) (key a))
    rows
  exact h.imp fun hab => by simpa using hab

theorem cache_foldl_append_plan :
    ∀ (ps : List Plan) (e : EngineState),
      (ps.foldl (fun acc p => (CrocEngine.append_plan true true acc p).2) e).cache =
        ps.foldl Cache.upsert_plan e.cache
  | [], _ => rfl
  | p :: ps, e => cache_foldl_append_plan ps (CrocEngine.append_plan true true e p).2

theorem cache_foldl_append_task :
    ∀ (ts : List Task) (e : EngineState),
      (ts.foldl (fun acc t => (CrocEngine.append_task true true acc t).2) e).cache =
        ts.foldl Cache.upsert_task e.cache
  | [], _ => rfl
  | t :: ts, e => cache_foldl_append_task ts (CrocEngine.append_task true true e t).2

theorem cache_foldl_append_context :
    ∀ (xs : List ContextItem) (e : EngineState),
      (xs.foldl (fun acc x => (CrocEngine.append_context true true acc x).2) e).cache =
        xs.foldl Cache.upsert_context e.cache
  | [], _ => rfl
  | x :: xs, e => cache_foldl_append_context xs (CrocEngine.append_context true true e x).2

theorem cache_foldl_append_event :
    ∀ (evs : List Event) (e : EngineState),
      (evs.foldl (fun acc ev => (CrocEngine.append_event true true acc ev).2) e).cache =
        evs.foldl Cache.upsert_event e.cache
  | [], _ => rfl
  | ev :: evs, e => cache_foldl_append_event evs (CrocEngine.append_event true true e ev).2

theorem cache_foldl_append_review :
    ∀ (rs : List Review) (e : EngineState),
      (rs.foldl (fun acc r => (CrocEngine.append_review true true acc r).2) e).cache =
        rs.foldl Cache.upsert_review e.cache
  | [], _ => rfl
  | r :: rs, e => cache_foldl_append_review rs (CrocEngine.append_review true true e r).2

/-- Replaying the logs into a cleared mirror (`full_sync`) produces the
same mirror as writing every log record through the engine's successful
write-through path into an empty engine. -/
theorem full_sync_cache (e : EngineState) :
    (CrocEngine.full_sync e).cache =
      (CrocEngine.writeDirectly EngineState.empty e.storage).cache := by
  simp only [CrocEngine.writeDirectly]
  rw [cache_foldl_append_review, cache_foldl_append_event, cache_foldl_append_context,
    cache_foldl_append_task, cache_foldl_append_plan]
  rfl

/-! ## Claim theorems -/

/-- C10: every entity produced by the public constructors starts in the
Pending status with `created_at` equal to `updated_at`: `Plan::new` yields
status Pending, absent `approved_at`, empty `subtasks_preview` and
`considerations`; `Task::new_foreman` and `Task::new_subtask` yield status
Pending with empty `depends_on` and no worktree or assigned worker;
`Review::new` yields status Pending with empty notes. -/
theorem constructors_start_pending (id title description plan_id parent_id : String)
    (num now : Nat) (rt : ReviewerType) :
    ((Plan.new id title description now).status = .pending ∧
      (Plan.new id title description now).approved_at = none ∧
      (Plan.new id title description now).subtasks_preview = [] ∧
      (Plan.new id title description now).considerations = [] ∧
      (Plan.new id title description now).created_at = now ∧
      (Plan.new id title description now).updated_at = now) ∧
    ((Task.new_foreman plan_id title now).status = .pending ∧
      (Task.new_foreman plan_id title now).depends_on = [] ∧
      (Task.new_foreman plan_id title now).worktree = none ∧
      (Task.new_foreman plan_id title now).assigned_worker = none ∧
      (Task.new_foreman plan_id title now).created_at = now ∧
      (Task.new_foreman plan_id title now).updated_at = now) ∧
    ((Task.new_subtask plan_id parent_id num title now).status = .pending ∧
      (Task.new_subtask plan_id parent_id num title now).depends_on = [] ∧
      (Task.new_subtask plan_id parent_id num title now).worktree = none ∧
      (Task.new_subtask plan_id parent_id num title now).assigned_worker = none ∧
      (Task.new_subtask plan_id parent_id num title now).created_at = now ∧
      (Task.new_subtask plan_id parent_id num title now).updated_at = now) ∧
    ((Review.new plan_id rt now).status = .pending ∧
      (Review.new plan_id rt now).notes = [] ∧
      (Review.new plan_id rt now).created_at = now ∧
      (Review.new plan_id rt now).updated_at = now) :=
  ⟨⟨rfl, rfl, rfl, rfl, rfl, rfl⟩, ⟨rfl, rfl, rfl, rfl, rfl, rfl⟩,
   ⟨rfl, rfl, rfl, rfl, rfl, rfl⟩, ⟨rfl, rfl, rfl, rfl⟩⟩

/-- C5: the session-name derivations are pure functions satisfying, byte
for byte: `worker("plan-abc123", "task-abc123.1.2") = "croc-worker-abc123-2"`,
`worker("abc123", "def456") = "croc-worker-abc123-def456"`,
`foreman("abc123") = "croc-foreman-abc123"`; in general foreman and
reviewer strip a leading `"plan-"` when present (else use the id
unchanged), and the worker task segment strips a leading `"task-"` and
takes the component after the final dot (else uses the task id
unchanged). -/
theorem session_naming (x p t y b : RStr) :
    (worker_session_name "plan-abc123".toList "task-abc123.1.2".toList =
        "croc-worker-abc123-2".toList ∧
      worker_session_name "abc123".toList "def456".toList =
        "croc-worker-abc123-def456".toList ∧
      foreman_session_name "abc123".toList = "croc-foreman-abc123".toList) ∧
    (foreman_session_name ("plan-".toList ++ x) = "croc-foreman-".toList ++ x) ∧
    (¬ "plan-".toList <+: p → foreman_session_name p = "croc-foreman-".toList ++ p) ∧
    (reviewer_session_name ("plan-".toList ++ x) = "croc-reviewer-".toList ++ x) ∧
    (¬ "plan-".toList <+: p → reviewer_session_name p = "croc-reviewer-".toList ++ p) ∧
    ('.' ∉ b → worker_session_name ("plan-".toList ++ x)
        ("task-".toList ++ (y ++ '.' :: b)) =
        "croc-worker-".toList ++ x ++ "-".toList ++ b) ∧
    ('.' ∉ y → worker_session_name ("plan-".toList ++ x) ("task-".toList ++ y) =
        "croc-worker-".toList ++ x ++ "-".toList ++ y) ∧
    (¬ "task-".toList <+: t → worker_session_name ("plan-".toList ++ x) t =
        "croc-worker-".toList ++ x ++ "-".toList ++ t) := by
  refine ⟨⟨by decide, by decide, by decide⟩, ?_, ?_, ?_, ?_, ?_, ?_, ?_⟩
  · simp only [foreman_session_name]
    rw [stripPrefix?_append]
    rfl
  · intro h
    simp only [foreman_session_name]
    rw [stripPrefix?_eq_none h]
    rfl
  · simp only [reviewer_session_name]
    rw [stripPrefix?_append]
    rfl
  · intro h
    simp only [reviewer_session_name]
    rw [stripPrefix?_eq_none h]
    rfl
  · intro hb
    simp only [worker_session_name]
    rw [stripPrefix?_append, stripPrefix?_append]
    simp only [Option.some_bind, Option.getD_some]
    rw [getLast?_splitDot_append_dot, splitDot_no_dot hb]
    rfl
  · intro hy
    simp only [worker_session_name]
    rw [stripPrefix?_append, stripPrefix?_append]
    simp only [Option.some_bind, Option.getD_some]
    rw [splitDot_no_dot hy]
    rfl
  · intro ht
    simp only [worker_session_name]
    rw [stripPrefix?_append, stripPrefix?_eq_none ht]
    rfl

/-- C5 witness: the general clauses applied at concrete inputs. -/
theorem session_naming_witness :
    (¬ "plan-".toList <+: "abc".toList) ∧
    foreman_session_name "abc".toList = "croc-foreman-".toList ++ "abc".toList ∧
    ('.' ∉ "7".toList) ∧
    worker_session_name ("plan-".toList ++ "p1".toList)
        ("task-".toList ++ ("p1.3".toList ++ '.' :: "7".toList)) =
      "croc-worker-".toList ++ "p1".toList ++ "-".toList ++ "7".toList :=
  ⟨by decide,
   (session_naming [] "abc".toList [] [] []).2.2.1 (by decide),
   by decide,
   (session_naming "p1".toList [] [] "p1.3".toList "7".toList).2.2.2.2.2.1 (by decide)⟩

/-- C7: for an id absent from the mirror, the required read returns
exactly `NotFound` carrying the entity type and the id, and the optional
read returns `Ok(None)`. -/
theorem get_missing_not_found (e : EngineState) (id : String) :
    (Cache.get_plan e.cache id = none →
      CrocEngine.get_plan e id = .error (.notFound "Plan" id) ∧
      CrocEngine.get_plan_opt e id = .ok none) ∧
    (Cache.get_task e.cache id = none →
      CrocEngine.get_task e id = .error (.notFound "Task" id) ∧
      CrocEngine.get_task_opt e id = .ok none) := by
  constructor
  · intro h
    exact ⟨by simp [CrocEngine.get_plan, h], by simp [CrocEngine.get_plan_opt, h]⟩
  · intro h
    exact ⟨by simp [CrocEngine.get_task, h], by simp [CrocEngine.get_task_opt, h]⟩

/-- C7 witness: the empty engine at a concrete missing id. -/
theorem get_missing_not_found_witness :
    CrocEngine.get_plan EngineState.empty "nonexistent-id" =
      .error (.notFound "Plan" "nonexistent-id") ∧
    CrocEngine.get_plan_opt EngineState.empty "nonexistent-id" = .ok none ∧
    CrocEngine.get_task EngineState.empty "nonexistent-id" =
      .error (.notFound "Task" "nonexistent-id") ∧
    CrocEngine.get_task_opt EngineState.empty "nonexistent-id" = .ok none := by
  obtain ⟨h1, h2⟩ := get_missing_not_found EngineState.empty "nonexistent-id"
  exact ⟨(h1 rfl).1, (h1 rfl).2, (h2 rfl).1, (h2 rfl).2⟩

/-- C8 counterexample: a project whose `.croc` directory exists but whose
log targets are all absent is accepted by `CrocEngine::new` — construction
does not fail when the required log targets are absent, because
`Config::is_initialized` only checks the directory. -/
theorem engine_new_missing_logs_counterexample :
    (ProjectFs.mk true none none none none none Cache.clear_all).plansFile = none ∧
    CrocEngine.new (ProjectFs.mk true none none none none none Cache.clear_all) ≠
      .error .invalidConfig := by
  refine ⟨rfl, fun h => ?_⟩
  simp [CrocEngine.new, Config.is_initialized, CrocEngine.ensure_cache_synced,
    Cache.get_all_plans, descCreated, StorageState.ofFs, Cache.clear_all] at h

/-- C8 amended: engine construction fails fast with `InvalidConfig`
exactly when the project directory (`.croc`) does not exist; absent
individual log targets do not cause failure (they read as empty). -/
theorem engine_new_initialized_check (fs : ProjectFs) :
    (fs.crocDirExists = false → CrocEngine.new fs = .error .invalidConfig) ∧
    (fs.crocDirExists = true → ∃ e, CrocEngine.new fs = .ok e) := by
  constructor
  · intro h
    simp [CrocEngine.new, Config.is_initialized, h]
  · intro h
    exact ⟨CrocEngine.ensure_cache_synced ⟨StorageState.ofFs fs, fs.cacheDb⟩,
      by simp [CrocEngine.new, Config.is_initialized, h]⟩

/-- C8 witness: both sides of the directory check at concrete states. -/
theorem engine_new_initialized_check_witness :
    CrocEngine.new (ProjectFs.mk false none none none none none Cache.clear_all) =
      .error .invalidConfig ∧
    ∃ e, CrocEngine.new (ProjectFs.mk true none none none none none Cache.clear_all) =
      .ok e :=
  ⟨(engine_new_initialized_check _).1 rfl, (engine_new_initialized_check _).2 rfl⟩

/-- C9 counterexample: a `tmux list-sessions` invocation that runs but
exits nonzero yields `Ok` of the empty list — a successful empty result
for a failed supervisor call, not a `SessionError`. -/
theorem list_sessions_failure_counterexample :
    list_sessions (.ran false [['a']]) = .ok [] := rfl

/-- C9 amended: every session operation surfaces a failure to launch the
supervisor as a `Tmux` error; spawn, sendInput, captureOutput, kill and
attach also surface a nonzero supervisor exit as a `Tmux` error; `exists`
maps the exit status to its boolean answer; `listAll` maps a nonzero exit
to a successful empty list (and `listByPrefix` inherits this). -/
theorem session_ops_error_surface (out : List RStr) :
    (TmuxSession.spawn .launchError = .error .tmux ∧
      TmuxSession.exists .launchError = .error .tmux ∧
      TmuxSession.send_keys .launchError = .error .tmux ∧
      TmuxSession.capture_pane .launchError = .error .tmux ∧
      TmuxSession.kill .launchError = .error .tmux ∧
      TmuxSession.attach .launchError = .error .tmux ∧
      list_sessions .launchError = .error .tmux ∧
      find_croc_sessions .launchError = .error .tmux) ∧
    (TmuxSession.spawn (.ran false out) = .error .tmux ∧
      TmuxSession.send_keys (.ran false out) = .error .tmux ∧
      TmuxSession.capture_pane (.ran false out) = .error .tmux ∧
      TmuxSession.kill (.ran false out) = .error .tmux ∧
      TmuxSession.attach (.ran false out) = .error .tmux) ∧
    (TmuxSession.exists (.ran false out) = .ok false ∧
      TmuxSession.exists (.ran true out) = .ok true ∧
      TmuxSession.spawn (.ran true out) = .ok () ∧
      TmuxSession.capture_pane (.ran true out) = .ok out ∧
      list_sessions (.ran true out) = .ok out ∧
      list_sessions (.ran false out) = .ok []) :=
  ⟨⟨rfl, rfl, rfl, rfl, rfl, rfl, rfl, rfl⟩, ⟨rfl, rfl, rfl, rfl, rfl⟩,
   ⟨rfl, rfl, rfl, rfl, rfl, rfl⟩⟩

/-- C1: every `append<Entity>` writes to the log first and touches the
mirror only on log success: a failed log append returns the `Storage`
error with neither store changed; a mirror failure after a successful log
append returns the error while the log already holds the appended record
and the mirror is untouched; on success both stores are updated. -/
theorem append_write_through (e : EngineState) (p : Plan) (t : Task)
    (x : ContextItem) (ev : Event) (r : Review) (mOk : Bool) :
    (CrocEngine.append_plan false mOk e p = (.error .storage, e) ∧
      CrocEngine.append_task false mOk e t = (.error .storage, e) ∧
      CrocEngine.append_context false mOk e x = (.error .storage, e) ∧
      CrocEngine.append_event false mOk e ev = (.error .storage, e) ∧
      CrocEngine.append_review false mOk e r = (.error .storage, e)) ∧
    (CrocEngine.append_plan true false e p =
        (.error .sqlite, ⟨{ e.storage with plans := e.storage.plans ++ [p] }, e.cache⟩) ∧
      CrocEngine.append_task true false e t =
        (.error .sqlite, ⟨{ e.storage with tasks := e.storage.tasks ++ [t] }, e.cache⟩) ∧
      CrocEngine.append_context true false e x =
        (.error .sqlite, ⟨{ e.storage with context := e.storage.context ++ [x] }, e.cache⟩) ∧
      CrocEngine.append_event true false e ev =
        (.error .sqlite, ⟨{ e.storage with events := e.storage.events ++ [ev] }, e.cache⟩) ∧
      CrocEngine.append_review true false e r =
        (.error .sqlite, ⟨{ e.storage with reviews := e.storage.reviews ++ [r] }, e.cache⟩)) ∧
    (CrocEngine.append_plan true true e p =
        (.ok (), ⟨{ e.storage with plans := e.storage.plans ++ [p] },
          Cache.upsert_plan e.cache p⟩) ∧
      CrocEngine.append_task true true e t =
        (.ok (), ⟨{ e.storage with tasks := e.storage.tasks ++ [t] },
          Cache.upsert_task e.cache t⟩) ∧
      CrocEngine.append_context true true e x =
        (.ok (), ⟨{ e.storage with context := e.storage.context ++ [x] },
          Cache.upsert_context e.cache x⟩) ∧
      CrocEngine.append_event true true e ev =
        (.ok (), ⟨{ e.storage with events := e.storage.events ++ [ev] },
          Cache.upsert_event e.cache ev⟩) ∧
      CrocEngine.append_review true true e r =
        (.ok (), ⟨{ e.storage with reviews := e.storage.reviews ++ [r] },
          Cache.upsert_review e.cache r⟩)) :=
  ⟨⟨rfl, rfl, rfl, rfl, rfl⟩, ⟨rfl, rfl, rfl, rfl, rfl⟩, ⟨rfl, rfl, rfl, rfl, rfl⟩⟩

/-- C6: for every read of a log target, any non-blank line that fails to
parse as the target's entity type makes the whole read fail (with the
encode/decode member of the spec's StorageError class, i.e.
`CrocError::Json`) and no records are returned; blank or whitespace-only
lines are skipped and never cause an error. -/
theorem read_log_parse_error (dec : Json → Option α) (lines : LogFile) :
    ((∃ l ∈ lines, LogLine.isBad dec l = true) →
      readJsonlLines dec lines = .error .json ∧
      CrocError.json.isStorageClass = true) ∧
    ((∀ l ∈ lines, LogLine.isBad dec l = false) →
      readJsonlLines dec lines = .ok (decodedRecords dec lines)) :=
  ⟨fun h => ⟨readJsonlLines_of_bad dec lines h, rfl⟩,
   fun h => readJsonlLines_of_no_bad dec lines h⟩

/-- C6 witness: a malformed plan line aborts the read; a blank-only file
reads as empty. -/
theorem read_log_parse_error_witness :
    readJsonlLines Plan.fromJson? [.blank, .record (Json.str "junk")] = .error .json ∧
    readJsonlLines Plan.fromJson? [.blank] = .ok [] :=
  ⟨((read_log_parse_error Plan.fromJson? [.blank, .record (Json.str "junk")]).1
      ⟨.record (Json.str "junk"), by simp, rfl⟩).1,
   (read_log_parse_error Plan.fromJson? [.blank]).2
      (by intro l hl; simp only [List.mem_singleton] at hl; subst hl; rfl)⟩

/-- C4: appending a valid entity to its (fresh) log target and reading the
target back yields exactly that record, field for field; appending N
entities in sequence yields all N in append order. (An `Event` is valid
when its `data` is not a present-but-null value, which the line format
cannot represent.) -/
theorem append_then_read_round_trip :
    (∀ p : Plan, Storage.read_jsonl Plan.fromJson?
        (Storage.append_jsonl_locked Plan.toJson none p) = .ok [p]) ∧
    (∀ ps : List Plan, Storage.read_jsonl Plan.fromJson?
        (Storage.appendAll Plan.toJson none ps) = .ok ps) ∧
    (∀ t : Task, Storage.read_jsonl Task.fromJson?
        (Storage.append_jsonl_locked Task.toJson none t) = .ok [t]) ∧
    (∀ ts : List Task, Storage.read_jsonl Task.fromJson?
        (Storage.appendAll Task.toJson none ts) = .ok ts) ∧
    (∀ c : ContextItem, Storage.read_jsonl ContextItem.fromJson?
        (Storage.append_jsonl_locked ContextItem.toJson none c) = .ok [c]) ∧
    (∀ cs : List ContextItem, Storage.read_jsonl ContextItem.fromJson?
        (Storage.appendAll ContextItem.toJson none cs) = .ok cs) ∧
    (∀ ev : Event, ev.data ≠ some .null → Storage.read_jsonl Event.fromJson?
        (Storage.append_jsonl_locked Event.toJson none ev) = .ok [ev]) ∧
    (∀ evs : List Event, (∀ ev ∈ evs, ev.data ≠ some .null) →
      Storage.read_jsonl Event.fromJson?
        (Storage.appendAll Event.toJson none evs) = .ok evs) ∧
    (∀ r : Review, Storage.read_jsonl Review.fromJson?
        (Storage.append_jsonl_locked Review.toJson none r) = .ok [r]) ∧
    (∀ rs : List Review, Storage.read_jsonl Review.fromJson?
        (Storage.appendAll Review.toJson none rs) = .ok rs) := by
  have hP : ∀ ps : List Plan, Storage.read_jsonl Plan.fromJson?
      (Storage.appendAll Plan.toJson none ps) = .ok ps := fun ps => by
    simpa [Storage.read_jsonl, Except.map] using
      read_jsonl_appendAll Plan.toJson Plan.fromJson? ps none
        (fun x _ => plan_fromJson_toJson x)
  have hT : ∀ ts : List Task, Storage.read_jsonl Task.fromJson?
      (Storage.appendAll Task.toJson none ts) = .ok ts := fun ts => by
    simpa [Storage.read_jsonl, Except.map] using
      read_jsonl_appendAll Task.toJson Task.fromJson? ts none
        (fun x _ => task_fromJson_toJson x)
  have hC : ∀ cs : List ContextItem, Storage.read_jsonl ContextItem.fromJson?
      (Storage.appendAll ContextItem.toJson none cs) = .ok cs := fun cs => by
    simpa [Storage.read_jsonl, Except.map] using
      read_jsonl_appendAll ContextItem.toJson ContextItem.fromJson? cs none
        (fun x _ => context_fromJson_toJson x)
  have hE : ∀ evs : List Event, (∀ ev ∈ evs, ev.data ≠ some .null) →
      Storage.read_jsonl Event.fromJson?
        (Storage.appendAll Event.toJson none evs) = .ok evs := fun evs hval => by
    simpa [Storage.read_jsonl, Except.map] using
      read_jsonl_appendAll Event.toJson Event.fromJson? evs none
        (fun x hx => event_fromJson_toJson x (hval x hx))
  have hR : ∀ rs : List Review, Storage.read_jsonl Review.fromJson?
      (Storage.appendAll Review.toJson none rs) = .ok rs := fun rs => by
    simpa [Storage.read_jsonl, Except.map] using
      read_jsonl_appendAll Review.toJson Review.fromJson? rs none
        (fun x _ => review_fromJson_toJson x)
  exact ⟨fun p => hP [p], hP, fun t => hT [t], hT, fun c => hC [c], hC,
    fun ev h => hE [ev] (by simpa using h), hE, fun r => hR [r], hR⟩

/-- C4 witness: a concrete event (absent `data`) round-trips. -/
theorem append_then_read_round_trip_witness :
    eventPlain.data ≠ some .null ∧
    Storage.read_jsonl Event.fromJson?
      (Storage.append_jsonl_locked Event.toJson none eventPlain) = .ok [eventPlain] :=
  ⟨by simp [eventPlain],
   append_then_read_round_trip.2.2.2.2.2.2.1 eventPlain (by simp [eventPlain])⟩

/-- C3 counterexample: `getAllPlans` does not list plans in ascending
creation-time order — with a mirror holding plans created at instants 1
and 0, it returns the newer plan first (`ORDER BY created_at DESC`). -/
theorem get_all_plans_not_ascending :
    ¬ (Cache.get_all_plans cacheTwoPlans).Pairwise
        (fun a b => a.created_at ≤ b.created_at) := by
  have h : Cache.get_all_plans cacheTwoPlans = [planLater, planEarlier] := by
    unfold Cache.get_all_plans descCreated cacheTwoPlans
    exact List.mergeSort_of_sorted (by decide)
  rw [h]
  decide

/-- C3 amended: the Mirror Store queries order deterministically by
creation time: tasks by plan, context by plan and context by subtask are
ascending; active plans — exactly the plans with status Approved or
Running — are newest-first; and all-plans is also newest-first (not
ascending). -/
theorem mirror_query_order (c : CacheState) (pid sid : String) :
    ((Cache.get_all_plans c).Pairwise fun a b => b.created_at ≤ a.created_at) ∧
    ((Cache.get_active_plans c).Pairwise fun a b => b.created_at ≤ a.created_at) ∧
    (∀ p, p ∈ Cache.get_active_plans c ↔
      p ∈ c.plans ∧ (p.status = .approved ∨ p.status = .running)) ∧
    ((Cache.get_tasks_for_plan c pid).Pairwise fun a b => a.created_at ≤ b.created_at) ∧
    (∀ t, t ∈ Cache.get_tasks_for_plan c pid ↔ t ∈ c.tasks ∧ t.plan_id = pid) ∧
    ((Cache.get_context_for_plan c pid).Pairwise fun a b => a.created_at ≤ b.created_at) ∧
    ((Cache.get_context_for_task c sid).Pairwise fun a b => a.created_at ≤ b.created_at) := by
  refine ⟨pairwise_descCreated _ _, pairwise_descCreated _ _, ?_,
    pairwise_ascCreated _ _, ?_, pairwise_ascCreated _ _, pairwise_ascCreated _ _⟩
  · intro p
    simp [Cache.get_active_plans, descCreated, List.mem_filter, and_comm]
  · intro t
    simp [Cache.get_tasks_for_plan, ascCreated, List.mem_filter, and_comm]

/-- C2: engine construction full-syncs exactly when the mirror reports
zero plans while the plans log is non-empty: it then clears the mirror and
replays all five logs oldest-first, so the resulting mirror — and any
subsequent `get` — coincides with writing the log's records through the
mirror path directly; in every other situation construction leaves the
mirror untouched. -/
theorem startup_reconciliation (fs : ProjectFs) (hdir : fs.crocDirExists = true) :
    (Cache.get_all_plans fs.cacheDb = [] ∧ (StorageState.ofFs fs).plans ≠ [] →
      CrocEngine.new fs = .ok (CrocEngine.full_sync ⟨StorageState.ofFs fs, fs.cacheDb⟩) ∧
      (CrocEngine.full_sync ⟨StorageState.ofFs fs, fs.cacheDb⟩).storage =
        StorageState.ofFs fs ∧
      (CrocEngine.full_sync ⟨StorageState.ofFs fs, fs.cacheDb⟩).cache =
        (CrocEngine.writeDirectly EngineState.empty (StorageState.ofFs fs)).cache ∧
      (∀ id, CrocEngine.get_plan (CrocEngine.full_sync ⟨StorageState.ofFs fs, fs.cacheDb⟩) id =
        CrocEngine.get_plan
          (CrocEngine.writeDirectly EngineState.empty (StorageState.ofFs fs)) id)) ∧
    (¬ (Cache.get_all_plans fs.cacheDb = [] ∧ (StorageState.ofFs fs).plans ≠ []) →
      CrocEngine.new fs = .ok ⟨StorageState.ofFs fs, fs.cacheDb⟩) := by
  constructor
  · rintro ⟨hc, hs⟩
    have hnew : CrocEngine.new fs =
        .ok (CrocEngine.full_sync ⟨StorageState.ofFs fs, fs.cacheDb⟩) := by
      simp [CrocEngine.new, Config.is_initialized, hdir,
        CrocEngine.ensure_cache_synced, hc, hs]
    refine ⟨hnew, rfl, full_sync_cache _, fun id => ?_⟩
    unfold CrocEngine.get_plan
    rw [full_sync_cache]
  · intro h
    by_cases hc : Cache.get_all_plans fs.cacheDb = []
    · have hs : (StorageState.ofFs fs).plans = [] := by
        by_contra hs
        exact h ⟨hc, hs⟩
      simp [CrocEngine.new, Config.is_initialized, hdir,
        CrocEngine.ensure_cache_synced, hc, hs]
    · simp [CrocEngine.new, Config.is_initialized, hdir,
        CrocEngine.ensure_cache_synced, hc]

/-- C2 witness: a project with one logged plan and an empty mirror
triggers the sync; construction succeeds and the mirror equals the
directly written one. -/
theorem startup_reconciliation_witness :
    fsTrigger.crocDirExists = true ∧
    Cache.get_all_plans fsTrigger.cacheDb = [] ∧
    (StorageState.ofFs fsTrigger).plans ≠ [] ∧
    CrocEngine.new fsTrigger =
      .ok (CrocEngine.full_sync ⟨StorageState.ofFs fsTrigger, fsTrigger.cacheDb⟩) ∧
    (CrocEngine.full_sync ⟨StorageState.ofFs fsTrigger, fsTrigger.cacheDb⟩).cache =
      (CrocEngine.writeDirectly EngineState.empty (StorageState.ofFs fsTrigger)).cache := by
  have hc : Cache.get_all_plans fsTrigger.cacheDb = [] := by
    simp [fsTrigger, Cache.get_all_plans, descCreated, Cache.clear_all]
  have hs : (StorageState.ofFs fsTrigger).plans ≠ [] := by
    simp [fsTrigger, StorageState.ofFs]
  obtain ⟨h1, -⟩ := startup_reconciliation fsTrigger rfl
  obtain ⟨hnew, -, hcache, -⟩ := h1 ⟨hc, hs⟩
  exact ⟨rfl, hc, hs, hnew, hcache⟩

end Croc
